import Mathlib

/-!
Shallow embedding of the `hand_tracking_sdk` core (wire model, line parser,
frame assembler, dict serialization) from
`src/hand_tracking_sdk/{models,constants,parser,frame}.py`, together with
theorems settling the specification claims about them.

Numeric payload values (Python `float`) are modelled as rationals `ℚ`;
timestamps (Python `int`) as `Int`.  Stateful methods of the assembler are
modelled as explicit state-passing functions; clock reads
(`time.monotonic_ns()` / `time.time_ns()`) are modelled as explicit `mono` /
`wall` arguments giving the values the clocks would return during the call.
-/

namespace HandTrackingSDK

/-! ## Python builtin fragments used by the source -/

/-- Digits-to-number accumulator used by the decimal literal model. -/
def digitsVal (cs : List Char) : Nat :=
  cs.foldl (fun a c => a * 10 + (c.toNat - 48)) 0

/-- Model of Python `float(token)` on the wire format's plain decimal
literals: optional sign, an integer part and/or a fractional part
(`"1"`, `"0.25"`, `"-3."`, `"+.5"`).  Tokens outside this fragment
(letters, empty string, bare signs, …) fail.  Exotic inputs Python would
also accept (`"inf"`, `"nan"`, exponents, underscores) are outside the
fragment the wire format and the spec use and are not modelled. -/
def pyFloat? (s : String) : Option ℚ :=
  let body := match s.data with
    | '-' :: r => (true, r)
    | '+' :: r => (false, r)
    | r => (false, r)
  let ip := body.2.takeWhile Char.isDigit
  let rest := body.2.dropWhile Char.isDigit
  let fp? : Option (List Char) := match rest with
    | [] => some []
    | '.' :: fr => if fr.all Char.isDigit then some fr else Option.none
    | _ => Option.none
  match fp? with
  | Option.none => Option.none
  | some fp =>
    if ip.isEmpty ∧ fp.isEmpty then Option.none
    else
      let mag : ℚ := (digitsVal ip : ℚ) + (digitsVal fp : ℚ) / ((10 : ℚ) ^ fp.length)
      some (if body.1 then -mag else mag)

/-- Drop leading and trailing whitespace from a character list. -/
def trimChars (cs : List Char) : List Char :=
  ((cs.dropWhile Char.isWhitespace).reverse.dropWhile Char.isWhitespace).reverse

/-- Model of Python `str.strip()` with no argument. -/
def pyStrip (s : String) : String :=
  ⟨trimChars s.data⟩

/-- Model of Python `str.lower()` (ASCII inputs). -/
def pyLower (s : String) : String :=
  ⟨s.data.map Char.toLower⟩

/-- Split a character list at every character satisfying `p`, keeping
empty segments (the semantics of Python `str.split(sep)` for a
one-character separator, generalized to a predicate). -/
def splitPred (p : Char → Bool) : List Char → List (List Char)
  | [] => [[]]
  | c :: rest =>
    if p c then [] :: splitPred p rest
    else
      match splitPred p rest with
      | [] => [[c]]
      | seg :: segs => (c :: seg) :: segs

/-- Model of Python `s.split(",")`. -/
def pySplitComma (s : String) : List String :=
  (splitPred (fun c => c = ',') s.data).map (fun cs => ⟨cs⟩)

/-- Model of Python `str.split()` with no argument: split on whitespace
runs and drop empty tokens. -/
def pyWords (s : String) : List String :=
  ((splitPred Char.isWhitespace s.data).filter (fun t => t ≠ [])).map (fun cs => ⟨cs⟩)

/-- Text before and after the first `':'` of a character list, if any. -/
def breakOnColon : List Char → Option (List Char × List Char)
  | [] => Option.none
  | c :: rest =>
    if c = ':' then some ([], rest)
    else (breakOnColon rest).map (fun q => (c :: q.1, q.2))

/-- Model of Python `str.partition(":")`, restricted to report only the
information `parse_line` uses: `none` when no `":"` occurs (empty
separator), otherwise the text before the first `":"` and the text after
it. -/
def pyPartitionColon (s : String) : Option (String × String) :=
  (breakOnColon s.data).map (fun q => (⟨q.1⟩, ⟨q.2⟩))

/-! ## Wire model (`models.py`, `constants.py`) -/

/-- `HandSide` enum: logical side for a tracked hand. -/
inductive HandSide where
  | Left
  | Right
deriving DecidableEq, Repr

/-- The `str` value of a `HandSide` member. -/
def HandSide.value : HandSide → String
  | .Left => "Left"
  | .Right => "Right"

/-- Model of the `HandSide(raw)` enum constructor: succeeds exactly on the
member values, otherwise Python raises `ValueError`. -/
def HandSide.fromValue? (s : String) : Option HandSide :=
  if s = "Left" then some .Left
  else if s = "Right" then some .Right
  else Option.none

/-- `PacketType` enum: packet data category emitted by HTS. -/
inductive PacketType where
  | wrist
  | landmarks
deriving DecidableEq, Repr

/-- The `str` value of a `PacketType` member. -/
def PacketType.value : PacketType → String
  | .wrist => "wrist"
  | .landmarks => "landmarks"

/-- `WristPose`: cartesian wrist position and orientation quaternion. -/
structure WristPose where
  x : ℚ
  y : ℚ
  z : ℚ
  qx : ℚ
  qy : ℚ
  qz : ℚ
  qw : ℚ
deriving DecidableEq, Repr

/-- `HandLandmarks`: ordered hand landmarks as `(x, y, z)` points (the
dataclass stores whatever tuple it is given; no length check). -/
structure HandLandmarks where
  points : List (ℚ × ℚ × ℚ)
deriving DecidableEq, Repr

/-- `WristPacket` dataclass. -/
structure WristPacket where
  side : HandSide
  kind : PacketType
  data : WristPose
deriving DecidableEq, Repr

/-- `LandmarksPacket` dataclass. -/
structure LandmarksPacket where
  side : HandSide
  kind : PacketType
  data : HandLandmarks
deriving DecidableEq, Repr

/-- `ParsedPacket = WristPacket | LandmarksPacket` tagged union. -/
inductive ParsedPacket where
  | wrist (p : WristPacket)
  | landmarks (p : LandmarksPacket)
deriving DecidableEq, Repr

/-- `packet.side` of either union member. -/
def ParsedPacket.side : ParsedPacket → HandSide
  | .wrist p => p.side
  | .landmarks p => p.side

/-- `constants.WRIST_VALUE_COUNT`. -/
def WRIST_VALUE_COUNT : Nat := 7

/-- `constants.LANDMARK_COUNT`. -/
def LANDMARK_COUNT : Nat := 21

/-- `constants.LANDMARK_VALUE_COUNT`. -/
def LANDMARK_VALUE_COUNT : Nat := LANDMARK_COUNT * 3

/-! ## Line parser (`parser.py`) -/

/-- The distinct `ParseError` failure modes of `parser.py`, one constructor
per distinct message shape raised by the source. -/
inductive ParseError where
  | emptyLine
  | missingSeparator
  | invalidLabel (label : String)
  | unsupportedSide (side : String)
  | unsupportedPacketType (kind : String)
  | nonFloatValue
  | wrongValueCount (kind : PacketType) (expected got : Nat)
deriving DecidableEq, Repr

/-- `_parse_floats`: split the payload on `","`, strip each chunk, drop
empty chunks, and convert every remaining chunk with `float`; any failing
chunk makes the whole payload invalid. -/
def parse_floats (payload : String) : Except ParseError (List ℚ) :=
  let chunks := ((pySplitComma payload).map pyStrip).filter (fun c => c ≠ "")
  match chunks.mapM pyFloat? with
  | some vs => .ok vs
  | Option.none => .error .nonFloatValue

/-- `_parse_label`: split the label into whitespace tokens; exactly two are
required; the first must be a `HandSide` value, the lower-cased second a
`PacketType` value. -/
def parse_label (label : String) : Except ParseError (HandSide × PacketType) :=
  match pyWords label with
  | [side_raw, kind_raw] =>
    match HandSide.fromValue? side_raw with
    | Option.none => .error (.unsupportedSide side_raw)
    | some side =>
      let normalized_kind := pyLower kind_raw
      if normalized_kind = PacketType.wrist.value then .ok (side, .wrist)
      else if normalized_kind = PacketType.landmarks.value then .ok (side, .landmarks)
      else .error (.unsupportedPacketType kind_raw)
  | _ => .error (.invalidLabel label)

/-- `_parse_wrist`: exactly `WRIST_VALUE_COUNT` values, mapped positionally
into `WristPose(*values)`. -/
def parse_wrist (side : HandSide) (values : List ℚ) : Except ParseError ParsedPacket :=
  if h : values.length = WRIST_VALUE_COUNT then
    .ok (.wrist
      { side := side, kind := .wrist,
        data :=
          { x := values.get ⟨0, by simp [h, WRIST_VALUE_COUNT]⟩,
            y := values.get ⟨1, by simp [h, WRIST_VALUE_COUNT]⟩,
            z := values.get ⟨2, by simp [h, WRIST_VALUE_COUNT]⟩,
            qx := values.get ⟨3, by simp [h, WRIST_VALUE_COUNT]⟩,
            qy := values.get ⟨4, by simp [h, WRIST_VALUE_COUNT]⟩,
            qz := values.get ⟨5, by simp [h, WRIST_VALUE_COUNT]⟩,
            qw := values.get ⟨6, by simp [h, WRIST_VALUE_COUNT]⟩ } })
  else .error (.wrongValueCount .wrist WRIST_VALUE_COUNT values.length)

/-- `_parse_landmarks`: exactly `LANDMARK_VALUE_COUNT` values; the point
tuple is built from `range(0, LANDMARK_COUNT * 3, 3)` (21 start indices in
steps of 3, modelled as `List.range' 0 LANDMARK_COUNT 3`), taking
`(values[i], values[i+1], values[i+2])` at each start index. -/
def parse_landmarks (side : HandSide) (values : List ℚ) : Except ParseError ParsedPacket :=
  if values.length = LANDMARK_VALUE_COUNT then
    let points := (List.range' 0 LANDMARK_COUNT 3).map
      (fun i => (values.getD i 0, values.getD (i + 1) 0, values.getD (i + 2) 0))
    .ok (.landmarks { side := side, kind := .landmarks, data := { points := points } })
  else .error (.wrongValueCount .landmarks LANDMARK_VALUE_COUNT values.length)

/-- `parse_line`: strip, reject empty lines, partition on `":"`, parse the
payload floats, then parse the label, then dispatch on the packet kind.
The payload float conversion runs before the label validation, exactly as
in the source. -/
def parse_line (line : String) : Except ParseError ParsedPacket := do
  let stripped := pyStrip line
  if stripped = "" then throw .emptyLine
  else
    match pyPartitionColon stripped with
    | Option.none => throw .missingSeparator
    | some (head, tail) =>
      let label := pyStrip head
      let payload ← parse_floats tail
      let (side, kind) ← parse_label label
      match kind with
      | .wrist => parse_wrist side payload
      | .landmarks => parse_landmarks side payload

/-! ## Python value model for `to_dict` / `from_dict` (`models.py`, `frame.py`) -/

/-- Python values appearing in the serialized dictionaries: `None`,
strings, ints, floats (as `ℚ`), lists, and string-keyed dicts. -/
inductive PyVal where
  | pynone
  | str (s : String)
  | int (n : Int)
  | num (q : ℚ)
  | list (xs : List PyVal)
  | dict (entries : List (String × PyVal))
deriving Repr

/-- `values[k]` on a mapping modelled as an association list: the first
binding of `k`, `KeyError` (→ `none`) when absent. -/
def pyGet (entries : List (String × PyVal)) (k : String) : Option PyVal :=
  match entries with
  | [] => Option.none
  | (k', v) :: rest => if k' = k then some v else pyGet rest k

/-- Python `float(v)` on the value shapes reachable from `from_dict`
inputs: a float stays itself, an int converts exactly, a string goes
through the decimal-literal model; other shapes raise (→ `none`). -/
def pyFloatOf : PyVal → Option ℚ
  | .num q => some q
  | .int n => some (n : ℚ)
  | .str s => pyFloat? s
  | _ => Option.none

/-- Python `int(v)` on the value shapes reachable from `from_dict`
inputs: an int stays itself, a float truncates toward zero; other shapes
are outside the fragment `from_dict` is given by `to_dict` output. -/
def pyIntOf : PyVal → Option Int
  | .int n => some n
  | .num q => some (q.num.tdiv (q.den : Int))
  | _ => Option.none

/-- Python `str(v)` restricted to the shapes `from_dict` meets: identity
on strings, decimal rendering of ints, `"None"` for `None`; other shapes
get their `Repr` rendering stand-in (never reached by the claims). -/
def pyStrOf : PyVal → String
  | .str s => s
  | .int n => toString n
  | .pynone => "None"
  | v => toString (repr v)

/-- Encoding of an optional int the way `to_dict` writes
`recv_time_unix_ns` / `source_ts_ns`: `None` or the int itself. -/
def encOptInt : Option Int → PyVal
  | Option.none => .pynone
  | some n => .int n

/-- Decoding `None if values[k] is None else int(values[k])`. -/
def decOptInt : PyVal → Option (Option Int)
  | .pynone => some Option.none
  | v => (pyIntOf v).map some

/-- `WristPose.to_dict`. -/
def WristPose.to_dict (p : WristPose) : PyVal :=
  .dict
    [("x", .num p.x), ("y", .num p.y), ("z", .num p.z),
     ("qx", .num p.qx), ("qy", .num p.qy), ("qz", .num p.qz),
     ("qw", .num p.qw)]

/-- `WristPose.from_dict`: `float(values[k])` for each of the seven keys;
a missing key or non-convertible value raises (→ `none`). -/
def WristPose.from_dict (v : PyVal) : Option WristPose :=
  match v with
  | .dict es => do
    let x ← pyGet es "x" >>= pyFloatOf
    let y ← pyGet es "y" >>= pyFloatOf
    let z ← pyGet es "z" >>= pyFloatOf
    let qx ← pyGet es "qx" >>= pyFloatOf
    let qy ← pyGet es "qy" >>= pyFloatOf
    let qz ← pyGet es "qz" >>= pyFloatOf
    let qw ← pyGet es "qw" >>= pyFloatOf
    pure { x := x, y := y, z := z, qx := qx, qy := qy, qz := qz, qw := qw }
  | _ => Option.none

/-- One `[x, y, z]` entry of the `points` list written by
`HandLandmarks.to_dict`. -/
def encPoint : ℚ × ℚ × ℚ → PyVal
  | (x, y, z) => .list [.num x, .num y, .num z]

/-- `HandLandmarks.to_dict`: `{"points": [[x, y, z], ...]}`. -/
def HandLandmarks.to_dict (lm : HandLandmarks) : PyVal :=
  .dict [("points", .list (lm.points.map encPoint))]

/-- `(float(point[0]), float(point[1]), float(point[2]))` for one entry of
the raw `points` sequence: indexing requires a sequence with at least
three elements, each convertible by `float`. -/
def decPoint : PyVal → Option (ℚ × ℚ × ℚ)
  | .list ys => do
    let a ← ys.get? 0 >>= pyFloatOf
    let b ← ys.get? 1 >>= pyFloatOf
    let c ← ys.get? 2 >>= pyFloatOf
    pure (a, b, c)
  | _ => Option.none

/-- `HandLandmarks.from_dict`: read `values["points"]`, iterate it in
order, decode every point, and build the instance from however many
points were present — no 21-point check anywhere. -/
def HandLandmarks.from_dict (v : PyVal) : Option HandLandmarks :=
  match v with
  | .dict es => do
    let raw ← pyGet es "points"
    match raw with
    | .list ps => do
      let pts ← ps.mapM decPoint
      pure { points := pts }
    | _ => Option.none
  | _ => Option.none

/-! ## Frame model (`frame.py`) -/

/-- `HandFrame`: coherent per-hand frame assembled from wrist and landmark
packets. -/
structure HandFrame where
  side : HandSide
  frame_id : String
  wrist : WristPose
  landmarks : HandLandmarks
  sequence_id : Int
  recv_ts_ns : Int
  recv_time_unix_ns : Option Int
  source_ts_ns : Option Int
  wrist_recv_ts_ns : Int
  landmarks_recv_ts_ns : Int
deriving DecidableEq, Repr

/-- `HandFrame.to_dict`. -/
def HandFrame.to_dict (f : HandFrame) : PyVal :=
  .dict
    [("side", .str f.side.value),
     ("frame_id", .str f.frame_id),
     ("wrist", f.wrist.to_dict),
     ("landmarks", f.landmarks.to_dict),
     ("sequence_id", .int f.sequence_id),
     ("recv_ts_ns", .int f.recv_ts_ns),
     ("recv_time_unix_ns", encOptInt f.recv_time_unix_ns),
     ("source_ts_ns", encOptInt f.source_ts_ns),
     ("wrist_recv_ts_ns", .int f.wrist_recv_ts_ns),
     ("landmarks_recv_ts_ns", .int f.landmarks_recv_ts_ns)]

/-- `HandFrame.from_dict`: `HandSide(str(values["side"]))`,
`str(values["frame_id"])`, nested `from_dict`s, `int(...)` for the
numeric fields, and the `None`-preserving decode for the two optional
timestamps. -/
def HandFrame.from_dict (v : PyVal) : Option HandFrame :=
  match v with
  | .dict es => do
    let sideV ← pyGet es "side"
    let side ← HandSide.fromValue? (pyStrOf sideV)
    let frameIdV ← pyGet es "frame_id"
    let wrist ← pyGet es "wrist" >>= WristPose.from_dict
    let landmarks ← pyGet es "landmarks" >>= HandLandmarks.from_dict
    let sequence_id ← pyGet es "sequence_id" >>= pyIntOf
    let recv_ts_ns ← pyGet es "recv_ts_ns" >>= pyIntOf
    let recv_time_unix_ns ← pyGet es "recv_time_unix_ns" >>= decOptInt
    let source_ts_ns ← pyGet es "source_ts_ns" >>= decOptInt
    let wrist_recv_ts_ns ← pyGet es "wrist_recv_ts_ns" >>= pyIntOf
    let landmarks_recv_ts_ns ← pyGet es "landmarks_recv_ts_ns" >>= pyIntOf
    pure
      { side := side, frame_id := pyStrOf frameIdV, wrist := wrist,
        landmarks := landmarks, sequence_id := sequence_id,
        recv_ts_ns := recv_ts_ns, recv_time_unix_ns := recv_time_unix_ns,
        source_ts_ns := source_ts_ns, wrist_recv_ts_ns := wrist_recv_ts_ns,
        landmarks_recv_ts_ns := landmarks_recv_ts_ns }
  | _ => Option.none

/-! ## Frame assembler (`frame.py`) -/

/-- `_SideAssemblyState`: mutable per-side assembly state. -/
structure SideState where
  wrist : Option WristPose := Option.none
  wrist_recv_ts_ns : Option Int := Option.none
  landmarks : Option HandLandmarks := Option.none
  landmarks_recv_ts_ns : Option Int := Option.none
  last_emitted_wrist_recv_ts_ns : Option Int := Option.none
  last_emitted_landmarks_recv_ts_ns : Option Int := Option.none
  next_sequence_id : Int := 0
deriving DecidableEq, Repr

/-- `HandFrameAssembler` instance state: the `include_wall_time` setting,
the per-side frame identifiers, and the two per-side assembly records. -/
structure HandFrameAssembler where
  include_wall_time : Bool
  frame_id_left : String
  frame_id_right : String
  left : SideState
  right : SideState
deriving DecidableEq, Repr

/-- `self._state[side]` lookup. -/
def HandFrameAssembler.getSide (a : HandFrameAssembler) : HandSide → SideState
  | .Left => a.left
  | .Right => a.right

/-- `self._state[side] = st` update. -/
def HandFrameAssembler.setSide (a : HandFrameAssembler) (side : HandSide) (st : SideState) :
    HandFrameAssembler :=
  match side with
  | .Left => { a with left := st }
  | .Right => { a with right := st }

/-- `self._frame_id_by_side[side]` lookup. -/
def HandFrameAssembler.frameId (a : HandFrameAssembler) : HandSide → String
  | .Left => a.frame_id_left
  | .Right => a.frame_id_right

/-- `HandFrameAssembler.__init__`: defaults `hts_left_hand` /
`hts_right_hand`, optionally overridden per side, and fresh per-side
state. -/
def HandFrameAssembler.init (include_wall_time : Bool)
    (frame_id_by_side : HandSide → Option String) :
    HandFrameAssembler :=
  { include_wall_time := include_wall_time,
    frame_id_left := (frame_id_by_side .Left).getD "hts_left_hand",
    frame_id_right := (frame_id_by_side .Right).getD "hts_right_hand",
    left := {}, right := {} }

/-- `HandFrameAssembler.reset`: replace one side's state (or both) with a
fresh `_SideAssemblyState`. -/
def HandFrameAssembler.reset (a : HandFrameAssembler) (side : Option HandSide) :
    HandFrameAssembler :=
  match side with
  | Option.none => { a with left := {}, right := {} }
  | some s => a.setSide s {}

/-- `_resolve_timestamps`, with the clock reads the call would perform
passed in as `mono` (`time.monotonic_ns()`) and `wall`
(`time.time_ns()`). -/
def HandFrameAssembler.resolve_timestamps (a : HandFrameAssembler) (mono wall : Int)
    (recv_ts_ns recv_time_unix_ns : Option Int) : Int × Option Int :=
  let recv_ts_ns_value := recv_ts_ns.getD mono
  match recv_time_unix_ns with
  | some v => (recv_ts_ns_value, some v)
  | Option.none =>
    if a.include_wall_time then (recv_ts_ns_value, some wall)
    else (recv_ts_ns_value, Option.none)

/-- The staleness test of `push_packet`: a stored receive timestamp exists
and the new one is strictly smaller. -/
def isStale (stored : Option Int) (new_ts : Int) : Bool :=
  match stored with
  | some t => decide (new_ts < t)
  | Option.none => false

/-- The two assignments of the wrist branch of `push_packet`. -/
def SideState.storeWrist (s : SideState) (w : WristPose) (t : Int) : SideState :=
  { s with wrist := some w, wrist_recv_ts_ns := some t }

/-- The two assignments of the landmarks branch of `push_packet`. -/
def SideState.storeLandmarks (s : SideState) (lm : HandLandmarks) (t : Int) : SideState :=
  { s with landmarks := some lm, landmarks_recv_ts_ns := some t }

/-- `_maybe_emit_frame`: requires all four component fields present,
requires at least one stored receive timestamp to differ (`!=`) from its
last-emitted marker, then assigns the sequence id, advances the counter,
records the markers and builds the frame. -/
def HandFrameAssembler.maybe_emit_frame (a : HandFrameAssembler) (side : HandSide)
    (recv_time_unix_ns source_ts_ns : Option Int) : Option HandFrame × HandFrameAssembler :=
  let s := a.getSide side
  match s.wrist, s.wrist_recv_ts_ns, s.landmarks, s.landmarks_recv_ts_ns with
  | some w, some wts, some lm, some lts =>
    if s.last_emitted_wrist_recv_ts_ns = some wts ∧
        s.last_emitted_landmarks_recv_ts_ns = some lts then
      (Option.none, a)
    else
      let sequence_id := s.next_sequence_id
      let s' :=
        { s with
          next_sequence_id := s.next_sequence_id + 1,
          last_emitted_wrist_recv_ts_ns := some wts,
          last_emitted_landmarks_recv_ts_ns := some lts }
      (some
        { side := side, frame_id := a.frameId side, wrist := w, landmarks := lm,
          sequence_id := sequence_id, recv_ts_ns := max wts lts,
          recv_time_unix_ns := recv_time_unix_ns, source_ts_ns := source_ts_ns,
          wrist_recv_ts_ns := wts, landmarks_recv_ts_ns := lts },
        a.setSide side s')
  | _, _, _, _ => (Option.none, a)

/-- `push_packet`: resolve timestamps, run the per-component staleness
check (discarding the update wholesale when stale), store the component,
then try to emit. -/
def HandFrameAssembler.push_packet (a : HandFrameAssembler) (mono wall : Int)
    (packet : ParsedPacket) (recv_ts_ns recv_time_unix_ns source_ts_ns : Option Int) :
    Option HandFrame × HandFrameAssembler :=
  let resolved := a.resolve_timestamps mono wall recv_ts_ns recv_time_unix_ns
  let recv_ts_ns_value := resolved.1
  let recv_time_unix_ns_value := resolved.2
  let s := a.getSide packet.side
  match packet with
  | .wrist wp =>
    if isStale s.wrist_recv_ts_ns recv_ts_ns_value then (Option.none, a)
    else
      let a2 := a.setSide wp.side (s.storeWrist wp.data recv_ts_ns_value)
      a2.maybe_emit_frame wp.side recv_time_unix_ns_value source_ts_ns
  | .landmarks lp =>
    if isStale s.landmarks_recv_ts_ns recv_ts_ns_value then (Option.none, a)
    else
      let a2 := a.setSide lp.side (s.storeLandmarks lp.data recv_ts_ns_value)
      a2.maybe_emit_frame lp.side recv_time_unix_ns_value source_ts_ns

/-- `push_line`: parse, then push; a parse failure propagates and leaves
the assembler untouched. -/
def HandFrameAssembler.push_line (a : HandFrameAssembler) (mono wall : Int) (line : String)
    (recv_ts_ns recv_time_unix_ns source_ts_ns : Option Int) :
    Except ParseError (Option HandFrame) × HandFrameAssembler :=
  match parse_line line with
  | .error e => (.error e, a)
  | .ok packet =>
    let r := a.push_packet mono wall packet recv_ts_ns recv_time_unix_ns source_ts_ns
    (.ok r.1, r.2)

/-! ### Derived notions used to state the claims -/

/-- The stored receive timestamp of the component a packet carries. -/
def SideState.storedTsFor (s : SideState) : ParsedPacket → Option Int
  | .wrist _ => s.wrist_recv_ts_ns
  | .landmarks _ => s.landmarks_recv_ts_ns

/-- The state update `push_packet` performs for a non-stale packet. -/
def SideState.updateFor (s : SideState) (p : ParsedPacket) (t : Int) : SideState :=
  match p with
  | .wrist wp => s.storeWrist wp.data t
  | .landmarks lp => s.storeLandmarks lp.data t

/-- Both components (value and receive timestamp) are present. -/
def SideState.bothPresent (s : SideState) : Prop :=
  s.wrist.isSome ∧ s.wrist_recv_ts_ns.isSome ∧
    s.landmarks.isSome ∧ s.landmarks_recv_ts_ns.isSome

/-- At least one stored component timestamp differs (`!=`) from its
last-emitted marker. -/
def SideState.advanced (s : SideState) : Prop :=
  s.last_emitted_wrist_recv_ts_ns ≠ s.wrist_recv_ts_ns ∨
    s.last_emitted_landmarks_recv_ts_ns ≠ s.landmarks_recv_ts_ns

instance (s : SideState) : Decidable s.bothPresent := by
  unfold SideState.bothPresent; infer_instance

instance (s : SideState) : Decidable s.advanced := by
  unfold SideState.advanced; infer_instance

/-- The per-side sequence counter. -/
def HandFrameAssembler.nextSeq (a : HandFrameAssembler) (side : HandSide) : Int :=
  (a.getSide side).next_sequence_id

/-- One recorded `push_packet` call: the packet, the clock values during
the call, and the caller-supplied optional timestamps. -/
structure PushInput where
  packet : ParsedPacket
  mono : Int
  wall : Int
  recv_ts_ns : Option Int
  recv_time_unix_ns : Option Int
  source_ts_ns : Option Int
deriving Repr

/-- Run one recorded call. -/
def HandFrameAssembler.pushOne (a : HandFrameAssembler) (i : PushInput) :
    Option HandFrame × HandFrameAssembler :=
  a.push_packet i.mono i.wall i.packet i.recv_ts_ns i.recv_time_unix_ns i.source_ts_ns

/-- Run a list of recorded calls, collecting every emitted frame in
order. -/
def HandFrameAssembler.runPushes (a : HandFrameAssembler) :
    List PushInput → List HandFrame × HandFrameAssembler
  | [] => ([], a)
  | i :: rest =>
    let r := a.pushOne i
    let rec' := r.2.runPushes rest
    (r.1.toList ++ rec'.1, rec'.2)

/-- The stored component value matches the packet's payload (the claim's
"stored value … overwritten with the new one", per component type). -/
def SideState.packetStored (s : SideState) : ParsedPacket → Prop
  | .wrist wp => s.wrist = some wp.data
  | .landmarks lp => s.landmarks = some lp.data

/-- Concrete pose used by witness instantiations. -/
def samplePose : WristPose :=
  { x := 1, y := 2, z := 3, qx := 0, qy := 0, qz := 0, qw := 1 }

/-- Concrete landmark set used by witness instantiations. -/
def sampleLandmarks : HandLandmarks := { points := [(1, 2, 3)] }

/-- Concrete wrist packet used by witness instantiations. -/
def sampleWristPacket : ParsedPacket :=
  .wrist { side := .Left, kind := .wrist, data := samplePose }

/-- Concrete landmarks packet used by witness instantiations. -/
def sampleLandmarksPacket : ParsedPacket :=
  .landmarks { side := .Left, kind := .landmarks, data := sampleLandmarks }

/-- A left-side state that has already seen landmarks (at ts 5). -/
def sampleSide : SideState :=
  { landmarks := some sampleLandmarks, landmarks_recv_ts_ns := some 5 }

/-- Assembler whose left side has seen landmarks only. -/
def sampleA : HandFrameAssembler :=
  { include_wall_time := false, frame_id_left := "hts_left_hand",
    frame_id_right := "hts_right_hand", left := sampleSide, right := {} }

/-- A left-side state holding a wrist observation at ts 100. -/
def staleSide : SideState :=
  { wrist := some samplePose, wrist_recv_ts_ns := some 100 }

/-- Assembler whose left side holds a wrist observation at ts 100. -/
def staleA : HandFrameAssembler :=
  { include_wall_time := false, frame_id_left := "hts_left_hand",
    frame_id_right := "hts_right_hand", left := staleSide, right := {} }

/-- A three-push trace for the left side: wrist at 10, landmarks at 20
(emits), wrist again at 30 (emits). -/
def sampleTrace : List PushInput :=
  [{ packet := sampleWristPacket, mono := 0, wall := 0, recv_ts_ns := some 10,
     recv_time_unix_ns := Option.none, source_ts_ns := Option.none },
   { packet := sampleLandmarksPacket, mono := 0, wall := 0, recv_ts_ns := some 20,
     recv_time_unix_ns := Option.none, source_ts_ns := Option.none },
   { packet := sampleWristPacket, mono := 0, wall := 0, recv_ts_ns := some 30,
     recv_time_unix_ns := Option.none, source_ts_ns := Option.none }]

/-- A fresh assembler built by `init` with wall time off. -/
def freshA : HandFrameAssembler := HandFrameAssembler.init false (fun _ => Option.none)

/-- A well-formed wrist line used by witness instantiations. -/
def goodWristLine : String := "Left wrist: 1, 2, 3, 0, 0, 0, 1"

/-- The packet `parse_line` yields for `goodWristLine`. -/
def goodWristPacket : ParsedPacket :=
  (parse_line goodWristLine).toOption.getD sampleWristPacket

/-- A wrist line with a trailing comma, used by witness instantiations. -/
def c7Line : String := "Left wrist: 1, 2, 3, 0, 0, 0, 1,"

/-- The payload part of `c7Line`. -/
def c7Tail : String := " 1, 2, 3, 0, 0, 0, 1,"

/-- The non-empty stripped payload chunks of `c7Tail` (the trailing comma's
empty final chunk is dropped). -/
def c7Chunks : List String := ((pySplitComma c7Tail).map pyStrip).filter (fun c => c ≠ "")

/-- The float values of `c7Chunks`. -/
def c7Vals : List ℚ := (c7Chunks.mapM pyFloat?).getD []

/-- Grouping of a flat value list into consecutive `(x, y, z)` triples, the
spec's description of the landmarks payload layout; compared against the
index-based construction of `parse_landmarks`. -/
def chunk3 : List ℚ → List (ℚ × ℚ × ℚ)
  | x :: y :: z :: rest => (x, y, z) :: chunk3 rest
  | _ => []

/-! ## Lemmas -/

theorem decPoint_encPoint (t : ℚ × ℚ × ℚ) : decPoint (encPoint t) = some t := by
  obtain ⟨x, y, z⟩ := t
  rfl

theorem mapM_decPoint_encPoint (pts : List (ℚ × ℚ × ℚ)) :
    (pts.map encPoint).mapM decPoint = some pts := by
  rw [← List.mapM'_eq_mapM]
  induction pts with
  | nil => rfl
  | cons t rest ih =>
    simp [List.mapM', decPoint_encPoint, ih]

theorem fromValue_value (side : HandSide) : HandSide.fromValue? side.value = some side := by
  cases side <;> rfl

theorem decOptInt_encOptInt (o : Option Int) : decOptInt (encOptInt o) = some o := by
  cases o <;> rfl

theorem wristPose_roundtrip (p : WristPose) : WristPose.from_dict p.to_dict = some p := rfl

theorem handLandmarks_roundtrip (lm : HandLandmarks) :
    HandLandmarks.from_dict lm.to_dict = some lm := by
  obtain ⟨pts⟩ := lm
  simp [HandLandmarks.to_dict, HandLandmarks.from_dict, pyGet,
    mapM_decPoint_encPoint pts, -List.mapM]

theorem handFrame_roundtrip (f : HandFrame) : HandFrame.from_dict f.to_dict = some f := by
  obtain ⟨side, fid, wrist, lm, seq, rts, runix, sts, wts, lts⟩ := f
  simp [HandFrame.to_dict, HandFrame.from_dict, pyGet, pyStrOf, fromValue_value,
    wristPose_roundtrip, handLandmarks_roundtrip, decOptInt_encOptInt, pyIntOf, -List.mapM]

/-- C6: for every `WristPose`, `HandLandmarks` and `HandFrame` value `v`,
`from_dict (to_dict v)` reproduces an equal value. -/
theorem serialization_roundtrip :
    (∀ p : WristPose, WristPose.from_dict p.to_dict = some p) ∧
    (∀ lm : HandLandmarks, HandLandmarks.from_dict lm.to_dict = some lm) ∧
    (∀ f : HandFrame, HandFrame.from_dict f.to_dict = some f) :=
  ⟨wristPose_roundtrip, handLandmarks_roundtrip, handFrame_roundtrip⟩

/-- C10: neither the `HandLandmarks` constructor nor
`HandLandmarks.from_dict` enforces a 21-point shape: for every list of
`n` coordinate triples (any `n`), `from_dict` succeeds and yields exactly
those `n` points in input order. -/
theorem handLandmarks_no_length_check (ps : List (ℚ × ℚ × ℚ)) :
    HandLandmarks.from_dict (.dict [("points", .list (ps.map encPoint))])
        = some (HandLandmarks.mk ps) ∧
      (HandLandmarks.mk ps).points = ps ∧
      (HandLandmarks.mk ps).points.length = ps.length := by
  refine ⟨?_, rfl, rfl⟩
  simp [HandLandmarks.from_dict, pyGet, mapM_decPoint_encPoint ps, -List.mapM]

theorem getSide_setSide_same (a : HandFrameAssembler) (σ : HandSide) (st : SideState) :
    (a.setSide σ st).getSide σ = st := by
  cases σ <;> rfl

theorem getSide_setSide_other (a : HandFrameAssembler) (σ τ : HandSide) (st : SideState)
    (h : σ ≠ τ) : (a.setSide σ st).getSide τ = a.getSide τ := by
  cases σ <;> cases τ <;> first | rfl | exact absurd rfl h

theorem frameId_setSide (a : HandFrameAssembler) (σ : HandSide) (st : SideState) (τ : HandSide) :
    (a.setSide σ st).frameId τ = a.frameId τ := by
  cases σ <;> cases τ <;> rfl

theorem maybe_emit_cases (a : HandFrameAssembler) (σ : HandSide) (runix sts : Option Int) :
    ((a.maybe_emit_frame σ runix sts).1 = Option.none ∧
        (a.maybe_emit_frame σ runix sts).2 = a ∧
        ¬((a.getSide σ).bothPresent ∧ (a.getSide σ).advanced)) ∨
      (∃ w wts lm lts,
        (a.getSide σ).wrist = some w ∧
        (a.getSide σ).wrist_recv_ts_ns = some wts ∧
        (a.getSide σ).landmarks = some lm ∧
        (a.getSide σ).landmarks_recv_ts_ns = some lts ∧
        ¬((a.getSide σ).last_emitted_wrist_recv_ts_ns = some wts ∧
            (a.getSide σ).last_emitted_landmarks_recv_ts_ns = some lts) ∧
        (a.maybe_emit_frame σ runix sts).1 = some
          { side := σ, frame_id := a.frameId σ, wrist := w, landmarks := lm,
            sequence_id := (a.getSide σ).next_sequence_id, recv_ts_ns := max wts lts,
            recv_time_unix_ns := runix, source_ts_ns := sts,
            wrist_recv_ts_ns := wts, landmarks_recv_ts_ns := lts } ∧
        (a.maybe_emit_frame σ runix sts).2 = a.setSide σ
          { a.getSide σ with
            next_sequence_id := (a.getSide σ).next_sequence_id + 1,
            last_emitted_wrist_recv_ts_ns := some wts,
            last_emitted_landmarks_recv_ts_ns := some lts }) := by
  unfold HandFrameAssembler.maybe_emit_frame SideState.bothPresent SideState.advanced
  generalize a.getSide σ = s
  obtain ⟨w, wts, lm, lts, lw, ll, n⟩ := s
  rcases w with _ | w <;> rcases wts with _ | wts <;>
    rcases lm with _ | lm <;> rcases lts with _ | lts <;>
      try (left; simp; done)
  by_cases hc : lw = some wts ∧ ll = some lts
  · left
    simp [hc]
  · right
    exact ⟨w, wts, lm, lts, rfl, rfl, rfl, rfl, hc, by simp [hc], by simp [hc]⟩

theorem resolve_fst (a : HandFrameAssembler) (mono wall : Int)
    (rts runix : Option Int) :
    (a.resolve_timestamps mono wall rts runix).1 = rts.getD mono := by
  unfold HandFrameAssembler.resolve_timestamps
  cases runix with
  | none => by_cases h : a.include_wall_time <;> simp [h]
  | some v => simp

theorem push_packet_cases (a : HandFrameAssembler) (mono wall : Int) (p : ParsedPacket)
    (rts runix sts : Option Int) :
    (isStale ((a.getSide p.side).storedTsFor p) (rts.getD mono) = true ∧
        a.push_packet mono wall p rts runix sts = (Option.none, a)) ∨
      (isStale ((a.getSide p.side).storedTsFor p) (rts.getD mono) = false ∧
        a.push_packet mono wall p rts runix sts =
          (a.setSide p.side ((a.getSide p.side).updateFor p (rts.getD mono))).maybe_emit_frame
            p.side (a.resolve_timestamps mono wall rts runix).2 sts) := by
  have hfst := resolve_fst a mono wall rts runix
  cases p with
  | wrist wp =>
    by_cases hst : isStale (a.getSide wp.side).wrist_recv_ts_ns (rts.getD mono) = true
    · left
      refine ⟨hst, ?_⟩
      unfold HandFrameAssembler.push_packet
      simp [hfst, hst, ParsedPacket.side]
    · right
      rw [Bool.not_eq_true] at hst
      refine ⟨hst, ?_⟩
      unfold HandFrameAssembler.push_packet
      simp [hfst, hst, ParsedPacket.side, SideState.updateFor]
  | landmarks lp =>
    by_cases hst : isStale (a.getSide lp.side).landmarks_recv_ts_ns (rts.getD mono) = true
    · left
      refine ⟨hst, ?_⟩
      unfold HandFrameAssembler.push_packet
      simp [hfst, hst, ParsedPacket.side]
    · right
      rw [Bool.not_eq_true] at hst
      refine ⟨hst, ?_⟩
      unfold HandFrameAssembler.push_packet
      simp [hfst, hst, ParsedPacket.side, SideState.updateFor]

theorem maybe_emit_isSome (a : HandFrameAssembler) (σ : HandSide) (runix sts : Option Int) :
    (a.maybe_emit_frame σ runix sts).1.isSome ↔
      (a.getSide σ).bothPresent ∧ (a.getSide σ).advanced := by
  rcases maybe_emit_cases a σ runix sts with ⟨h1, _, h3⟩ |
    ⟨w, wts, lm, lts, hw, hwt, hl, hlt, hc, hf, _⟩
  · simp [h1, h3]
  · have hbp : (a.getSide σ).bothPresent :=
      ⟨by simp [hw], by simp [hwt], by simp [hl], by simp [hlt]⟩
    have hadv : (a.getSide σ).advanced := by
      unfold SideState.advanced
      rw [hwt, hlt]
      exact not_and_or.mp hc
    simp [hf, hbp, hadv]

theorem maybe_emit_preserves_components (a : HandFrameAssembler) (σ : HandSide)
    (runix sts : Option Int) (τ : HandSide) :
    (((a.maybe_emit_frame σ runix sts).2).getSide τ).wrist = (a.getSide τ).wrist ∧
      (((a.maybe_emit_frame σ runix sts).2).getSide τ).wrist_recv_ts_ns
        = (a.getSide τ).wrist_recv_ts_ns ∧
      (((a.maybe_emit_frame σ runix sts).2).getSide τ).landmarks = (a.getSide τ).landmarks ∧
      (((a.maybe_emit_frame σ runix sts).2).getSide τ).landmarks_recv_ts_ns
        = (a.getSide τ).landmarks_recv_ts_ns := by
  rcases maybe_emit_cases a σ runix sts with ⟨_, h2, _⟩ |
    ⟨w, wts, lm, lts, _, _, _, _, _, _, h2⟩ <;> rw [h2]
  · exact ⟨rfl, rfl, rfl, rfl⟩
  · by_cases hστ : σ = τ
    · subst hστ
      simp [getSide_setSide_same]
    · simp [getSide_setSide_other _ _ _ _ hστ]

theorem maybe_emit_frame_shape (a : HandFrameAssembler) (σ : HandSide)
    (runix sts : Option Int) (f : HandFrame)
    (h : (a.maybe_emit_frame σ runix sts).1 = some f) :
    f.side = σ ∧ f.recv_time_unix_ns = runix ∧ f.source_ts_ns = sts ∧
      f.sequence_id = (a.getSide σ).next_sequence_id ∧
      f.recv_ts_ns = max f.wrist_recv_ts_ns f.landmarks_recv_ts_ns := by
  rcases maybe_emit_cases a σ runix sts with ⟨h1, _, _⟩ |
    ⟨w, wts, lm, lts, _, _, _, _, _, hf, _⟩
  · rw [h1] at h
    exact absurd h (by simp)
  · rw [hf] at h
    obtain rfl : _ = f := Option.some.inj h
    simp

/-- C1: given that the pushed packet passes the staleness check (its update
is applied), `push_packet` returns a frame iff, in the post-update side
state, both components have a stored value and at least one stored receive
timestamp differs (`!=`) from its last-emitted marker; otherwise it
returns `None`. -/
theorem push_packet_emits_iff (a : HandFrameAssembler) (mono wall : Int) (p : ParsedPacket)
    (rts runix sts : Option Int)
    (hfresh : isStale ((a.getSide p.side).storedTsFor p) (rts.getD mono) = false) :
    (a.push_packet mono wall p rts runix sts).1.isSome ↔
      ((a.getSide p.side).updateFor p (rts.getD mono)).bothPresent ∧
        ((a.getSide p.side).updateFor p (rts.getD mono)).advanced := by
  rcases push_packet_cases a mono wall p rts runix sts with ⟨hst, _⟩ | ⟨_, hpush⟩
  · rw [hfresh] at hst
    exact absurd hst (by simp)
  · rw [hpush, maybe_emit_isSome, getSide_setSide_same]

/-- Witness for C1 at a concrete input: left side already has landmarks at
ts 5; a fresh wrist push at ts 10 passes the staleness check and the
emission condition of the updated state holds iff the push emits. -/
theorem push_packet_emits_iff_witness :
    isStale ((sampleA.getSide sampleWristPacket.side).storedTsFor sampleWristPacket)
        ((some 10).getD 0) = false ∧
      ((sampleA.push_packet 0 0 sampleWristPacket (some 10) Option.none Option.none).1.isSome ↔
        ((sampleA.getSide sampleWristPacket.side).updateFor sampleWristPacket
            ((some 10).getD 0)).bothPresent ∧
          ((sampleA.getSide sampleWristPacket.side).updateFor sampleWristPacket
              ((some 10).getD 0)).advanced) :=
  ⟨by decide,
    push_packet_emits_iff sampleA 0 0 sampleWristPacket (some 10) Option.none Option.none
      (by decide)⟩

/-- C2: a pushed packet whose resolved receive timestamp is strictly older
than the stored timestamp of its component is discarded with no state
change and no emission; otherwise (greater or equal, or no stored
timestamp) the component's stored value and timestamp are overwritten with
the new ones. -/
theorem push_packet_staleness (a : HandFrameAssembler) (mono wall : Int) (p : ParsedPacket)
    (rts runix sts : Option Int) :
    (isStale ((a.getSide p.side).storedTsFor p) (rts.getD mono) = true →
        a.push_packet mono wall p rts runix sts = (Option.none, a)) ∧
      (isStale ((a.getSide p.side).storedTsFor p) (rts.getD mono) = false →
        (((a.push_packet mono wall p rts runix sts).2.getSide p.side).storedTsFor p
            = some (rts.getD mono) ∧
          ((a.push_packet mono wall p rts runix sts).2.getSide p.side).packetStored p)) := by
  constructor
  · intro hstale
    rcases push_packet_cases a mono wall p rts runix sts with ⟨_, hpush⟩ | ⟨hst, _⟩
    · exact hpush
    · rw [hstale] at hst
      exact absurd hst (by simp)
  · intro hfresh
    rcases push_packet_cases a mono wall p rts runix sts with ⟨hst, _⟩ | ⟨_, hpush⟩
    · rw [hfresh] at hst
      exact absurd hst (by simp)
    · rw [hpush]
      obtain ⟨hcw, hcwt, hcl, hclt⟩ :=
        maybe_emit_preserves_components
          (a.setSide p.side ((a.getSide p.side).updateFor p (rts.getD mono))) p.side
          (a.resolve_timestamps mono wall rts runix).2 sts p.side
      cases p with
      | wrist wp =>
        constructor
        · simp only [ParsedPacket.side, SideState.storedTsFor] at hcwt ⊢
          rw [hcwt, getSide_setSide_same]
          rfl
        · simp only [ParsedPacket.side, SideState.packetStored] at hcw ⊢
          rw [hcw, getSide_setSide_same]
          rfl
      | landmarks lp =>
        constructor
        · simp only [ParsedPacket.side, SideState.storedTsFor] at hclt ⊢
          rw [hclt, getSide_setSide_same]
          rfl
        · simp only [ParsedPacket.side, SideState.packetStored] at hcl ⊢
          rw [hcl, getSide_setSide_same]
          rfl

/-- Witness for C2 at concrete inputs: with a stored wrist timestamp 100,
a push at 50 is discarded leaving the assembler unchanged, and a push at
200 overwrites the stored wrist value and timestamp. -/
theorem push_packet_staleness_witness :
    (isStale ((staleA.getSide sampleWristPacket.side).storedTsFor sampleWristPacket)
          ((some 50).getD 0) = true ∧
        staleA.push_packet 0 0 sampleWristPacket (some 50) Option.none Option.none
          = (Option.none, staleA)) ∧
      (isStale ((staleA.getSide sampleWristPacket.side).storedTsFor sampleWristPacket)
            ((some 200).getD 0) = false ∧
          (((staleA.push_packet 0 0 sampleWristPacket (some 200) Option.none
                  Option.none).2.getSide sampleWristPacket.side).storedTsFor sampleWristPacket
              = some ((some 200).getD 0) ∧
            ((staleA.push_packet 0 0 sampleWristPacket (some 200) Option.none
                Option.none).2.getSide sampleWristPacket.side).packetStored sampleWristPacket)) :=
  ⟨⟨by decide,
      (push_packet_staleness staleA 0 0 sampleWristPacket (some 50) Option.none Option.none).1
        (by decide)⟩,
    ⟨by decide,
      (push_packet_staleness staleA 0 0 sampleWristPacket (some 200) Option.none Option.none).2
        (by decide)⟩⟩

/-- C5: every frame returned by `push_packet` carries
`recv_ts_ns = max wrist_recv_ts_ns landmarks_recv_ts_ns` over its own two
component receive timestamps. -/
theorem emitted_recv_ts_is_max (a : HandFrameAssembler) (mono wall : Int) (p : ParsedPacket)
    (rts runix sts : Option Int) (f : HandFrame)
    (h : (a.push_packet mono wall p rts runix sts).1 = some f) :
    f.recv_ts_ns = max f.wrist_recv_ts_ns f.landmarks_recv_ts_ns := by
  rcases push_packet_cases a mono wall p rts runix sts with ⟨_, hpush⟩ | ⟨_, hpush⟩ <;>
    rw [hpush] at h
  · exact absurd h (by simp)
  · exact (maybe_emit_frame_shape _ _ _ _ _ h).2.2.2.2

/-- Witness for C5: the emitting push of the concrete scenario yields a
frame whose `recv_ts_ns` is the max of its component timestamps. -/
theorem emitted_recv_ts_is_max_witness :
    (sampleA.push_packet 0 0 sampleWristPacket (some 10) Option.none Option.none).1
        = some ((sampleA.push_packet 0 0 sampleWristPacket (some 10) Option.none
            Option.none).1.getD (HandFrame.mk .Left "" samplePose sampleLandmarks 0 0
              Option.none Option.none 0 0)) ∧
      ((sampleA.push_packet 0 0 sampleWristPacket (some 10) Option.none
            Option.none).1.getD (HandFrame.mk .Left "" samplePose sampleLandmarks 0 0
              Option.none Option.none 0 0)).recv_ts_ns
        = max ((sampleA.push_packet 0 0 sampleWristPacket (some 10) Option.none
              Option.none).1.getD (HandFrame.mk .Left "" samplePose sampleLandmarks 0 0
                Option.none Option.none 0 0)).wrist_recv_ts_ns
            ((sampleA.push_packet 0 0 sampleWristPacket (some 10) Option.none
                Option.none).1.getD (HandFrame.mk .Left "" samplePose sampleLandmarks 0 0
                  Option.none Option.none 0 0)).landmarks_recv_ts_ns :=
  ⟨by decide,
    emitted_recv_ts_is_max sampleA 0 0 sampleWristPacket (some 10) Option.none Option.none _
      (by decide)⟩

/-- C9: an emitted frame's `recv_time_unix_ns` and `source_ts_ns` are
exactly the values resolved for the triggering push call
(caller-supplied, wall-clock-generated when configured, or `None`);
values supplied with earlier pushes are never consulted. -/
theorem emitted_frame_call_timestamps (a : HandFrameAssembler) (mono wall : Int)
    (p : ParsedPacket) (rts runix sts : Option Int) (f : HandFrame)
    (h : (a.push_packet mono wall p rts runix sts).1 = some f) :
    f.recv_time_unix_ns = (a.resolve_timestamps mono wall rts runix).2 ∧
      f.source_ts_ns = sts := by
  rcases push_packet_cases a mono wall p rts runix sts with ⟨_, hpush⟩ | ⟨_, hpush⟩ <;>
    rw [hpush] at h
  · exact absurd h (by simp)
  · have hs := maybe_emit_frame_shape _ _ _ _ _ h
    exact ⟨hs.2.1, hs.2.2.1⟩

/-- Witness for C9: the emitting push of the concrete scenario stamps the
frame with the wall-clock and source values resolved for that call. -/
theorem emitted_frame_call_timestamps_witness :
    (sampleA.push_packet 0 0 sampleWristPacket (some 10) (some 77) (some 88)).1
        = some ((sampleA.push_packet 0 0 sampleWristPacket (some 10) (some 77)
            (some 88)).1.getD (HandFrame.mk .Left "" samplePose sampleLandmarks 0 0
              Option.none Option.none 0 0)) ∧
      ((sampleA.push_packet 0 0 sampleWristPacket (some 10) (some 77)
            (some 88)).1.getD (HandFrame.mk .Left "" samplePose sampleLandmarks 0 0
              Option.none Option.none 0 0)).recv_time_unix_ns
          = (sampleA.resolve_timestamps 0 0 (some 10) (some 77)).2 ∧
        ((sampleA.push_packet 0 0 sampleWristPacket (some 10) (some 77)
              (some 88)).1.getD (HandFrame.mk .Left "" samplePose sampleLandmarks 0 0
                Option.none Option.none 0 0)).source_ts_ns = some 88 :=
  ⟨by decide,
    (emitted_frame_call_timestamps sampleA 0 0 sampleWristPacket (some 10) (some 77) (some 88) _
        (by decide)).1,
    (emitted_frame_call_timestamps sampleA 0 0 sampleWristPacket (some 10) (some 77) (some 88) _
        (by decide)).2⟩

/-- C8: `push_line` is exactly `parse_line` followed by `push_packet`: a
parse failure propagates unmodified with the assembler untouched, and a
parse success returns precisely what `push_packet` returns on the parsed
packet with the same timestamp arguments. -/
theorem push_line_spec (a : HandFrameAssembler) (mono wall : Int) (line : String)
    (rts runix sts : Option Int) :
    (∀ e, parse_line line = .error e →
        a.push_line mono wall line rts runix sts = (.error e, a)) ∧
      (∀ p, parse_line line = .ok p →
        a.push_line mono wall line rts runix sts =
          (.ok (a.push_packet mono wall p rts runix sts).1,
            (a.push_packet mono wall p rts runix sts).2)) := by
  constructor <;> intro x hx <;> unfold HandFrameAssembler.push_line <;> rw [hx]

/-- Witness for C8 at concrete inputs: the empty line's parse error
propagates with the state untouched, and a valid wrist line pushes the
parsed packet. -/
theorem push_line_spec_witness :
    (parse_line "" = .error .emptyLine ∧
        sampleA.push_line 0 0 "" Option.none Option.none Option.none
          = (.error .emptyLine, sampleA)) ∧
      (parse_line goodWristLine = .ok goodWristPacket ∧
        sampleA.push_line 0 0 goodWristLine (some 10) Option.none Option.none
          = (.ok (sampleA.push_packet 0 0 goodWristPacket (some 10) Option.none
              Option.none).1,
            (sampleA.push_packet 0 0 goodWristPacket (some 10) Option.none Option.none).2)) :=
  ⟨⟨by rfl,
      (push_line_spec sampleA 0 0 "" Option.none Option.none Option.none).1 .emptyLine
        (by rfl)⟩,
    ⟨by rfl,
      (push_line_spec sampleA 0 0 goodWristLine (some 10) Option.none
            Option.none).2 goodWristPacket (by rfl)⟩⟩

/-- C3 counterexample: the line `"Middle wrist: foo"` fails label checks
(unsupported side `"Middle"`) and has a non-float payload token; the claim
predicts the label error, but `parse_line` reports the non-float error,
because `_parse_floats` runs before `_parse_label`. -/
theorem parse_order_counterexample :
    parse_line "Middle wrist: foo" = .error .nonFloatValue ∧
      ParseError.nonFloatValue ≠ ParseError.unsupportedSide "Middle" :=
  ⟨rfl, by decide⟩

/-- C3 (amended): the validation order is: empty line, missing `':'`,
non-float payload token, then the label checks (shape, side, packet
type), then value count.  In particular any line with a `':'` whose
payload fails float conversion fails with the non-float error regardless
of its label. -/
theorem parse_floats_before_label (line head tail : String)
    (h1 : pyStrip line ≠ "")
    (h2 : pyPartitionColon (pyStrip line) = some (head, tail))
    (h3 : parse_floats tail = .error .nonFloatValue) :
    parse_line line = .error .nonFloatValue := by
  unfold parse_line
  simp [h1, h2, h3]
  rfl

/-- Witness for the amended C3 at the counterexample input. -/
theorem parse_floats_before_label_witness :
    pyStrip "Middle wrist: foo" ≠ "" ∧
      pyPartitionColon (pyStrip "Middle wrist: foo") = some ("Middle wrist", " foo") ∧
      parse_floats " foo" = .error .nonFloatValue ∧
      parse_line "Middle wrist: foo" = .error .nonFloatValue :=
  ⟨by decide, by rfl, by rfl,
    parse_floats_before_label "Middle wrist: foo" "Middle wrist" " foo" (by decide) (by rfl)
      (by rfl)⟩

theorem mapM_some_length {α β : Type} (f : α → Option β) :
    ∀ (l : List α) (l' : List β), l.mapM f = some l' → l'.length = l.length := by
  intro l
  induction l with
  | nil =>
    intro l' h
    rw [← List.mapM'_eq_mapM] at h
    simp [List.mapM'] at h
    simp [← h]
  | cons a as ih =>
    intro l' h
    rw [← List.mapM'_eq_mapM] at h
    simp only [List.mapM'] at h
    rcases hfa : f a with _ | b <;> rw [hfa] at h
    · exact absurd h (by simp)
    · rcases hrest : as.mapM' f with _ | bs <;> rw [hrest] at h
      · exact absurd h (by simp)
      · have hl : l' = b :: bs := by
          simpa using h.symm
        subst hl
        have := ih bs (by rw [← List.mapM'_eq_mapM]; exact hrest)
        simp [this]

theorem range'_triple_chunk3 (n : Nat) :
    ∀ (vs : List ℚ), vs.length = 3 * n →
      (List.range' 0 n 3).map
          (fun i => (vs.getD i 0, vs.getD (i + 1) 0, vs.getD (i + 2) 0))
        = chunk3 vs := by
  induction n with
  | zero =>
    intro vs h
    rw [Nat.mul_zero, List.length_eq_zero] at h
    subst h
    rfl
  | succ n ih =>
    intro vs h
    rcases vs with _ | ⟨a, _ | ⟨b, _ | ⟨c, r⟩⟩⟩ <;> simp at h <;> try omega
    have hr : r.length = 3 * n := by omega
    rw [List.range'_succ, List.map_cons]
    rw [show chunk3 (a :: b :: c :: r) = (a, b, c) :: chunk3 r from rfl]
    congr 1
    rw [show (3 : Nat) = 3 + 0 from rfl, ← List.map_add_range' 3 0 n 3, List.map_map]
    rw [← ih r hr]
    apply List.map_congr_left
    intro i _
    show ((a :: b :: c :: r).getD (3 + i) 0, (a :: b :: c :: r).getD (3 + i + 1) 0,
        (a :: b :: c :: r).getD (3 + i + 2) 0)
      = (r.getD i 0, r.getD (i + 1) 0, r.getD (i + 2) 0)
    rw [show 3 + i = i + 1 + 1 + 1 from by omega,
      show i + 1 + 1 + 1 + 1 = (i + 1) + 1 + 1 + 1 from by omega,
      show i + 1 + 1 + 1 + 2 = (i + 2) + 1 + 1 + 1 from by omega]
    simp [List.getD_cons_succ]

theorem parse_wrist_spec (side : HandSide) (vs : List ℚ) :
    (vs.length = WRIST_VALUE_COUNT →
        parse_wrist side vs = .ok (.wrist
          { side := side, kind := .wrist,
            data := { x := vs.getD 0 0, y := vs.getD 1 0, z := vs.getD 2 0,
                      qx := vs.getD 3 0, qy := vs.getD 4 0, qz := vs.getD 5 0,
                      qw := vs.getD 6 0 } })) ∧
      (vs.length ≠ WRIST_VALUE_COUNT →
        parse_wrist side vs = .error (.wrongValueCount .wrist WRIST_VALUE_COUNT vs.length)) := by
  constructor
  · intro h
    unfold parse_wrist
    rw [dif_pos h]
    have h7 : vs.length = 7 := h
    simp [List.getD_eq_getElem, h7, List.get_eq_getElem]
  · intro h
    unfold parse_wrist
    rw [dif_neg h]

theorem parse_landmarks_spec (side : HandSide) (vs : List ℚ) :
    (vs.length = LANDMARK_VALUE_COUNT →
        parse_landmarks side vs = .ok (.landmarks
          { side := side, kind := .landmarks, data := { points := chunk3 vs } })) ∧
      (vs.length ≠ LANDMARK_VALUE_COUNT →
        parse_landmarks side vs
          = .error (.wrongValueCount .landmarks LANDMARK_VALUE_COUNT vs.length)) := by
  constructor
  · intro h
    unfold parse_landmarks
    rw [if_pos h]
    have h3 : vs.length = 3 * LANDMARK_COUNT := by
      rw [h]
      rfl
    rw [range'_triple_chunk3 LANDMARK_COUNT vs h3]
  · intro h
    unfold parse_landmarks
    rw [if_neg h]

theorem parse_label_wrist (head : String) (side : HandSide) (kind_raw : String)
    (h3 : pyWords (pyStrip head) = [side.value, kind_raw])
    (hw : pyLower kind_raw = "wrist") :
    parse_label (pyStrip head) = .ok (side, .wrist) := by
  unfold parse_label
  rw [h3]
  simp [fromValue_value, hw, PacketType.value]

theorem parse_label_landmarks (head : String) (side : HandSide) (kind_raw : String)
    (h3 : pyWords (pyStrip head) = [side.value, kind_raw])
    (hl : pyLower kind_raw = "landmarks") :
    parse_label (pyStrip head) = .ok (side, .landmarks) := by
  unfold parse_label
  rw [h3]
  simp [fromValue_value, hl, PacketType.value]

theorem parse_line_reduces (line head tail : String) (side : HandSide) (kind_raw : String)
    (vs : List ℚ)
    (h1 : pyStrip line ≠ "")
    (h2 : pyPartitionColon (pyStrip line) = some (head, tail))
    (h3 : pyWords (pyStrip head) = [side.value, kind_raw])
    (h4 : parse_floats tail = .ok vs) :
    (pyLower kind_raw = "wrist" → parse_line line = parse_wrist side vs) ∧
      (pyLower kind_raw = "landmarks" → parse_line line = parse_landmarks side vs) := by
  constructor <;> intro hk <;> unfold parse_line
  · simp [h1, h2, h4, parse_label_wrist head side kind_raw h3 hk]
    rfl
  · simp [h1, h2, h4, parse_label_landmarks head side kind_raw h3 hk]
    rfl

/-- C7: on a line that strips non-empty, splits at `':'`, and whose label
words are a hand side and a kind, with every non-empty stripped payload
chunk (a trailing comma's empty chunk is dropped) converting to a float:
the number of parsed values equals the number of remaining chunks, a
wrist line succeeds iff exactly 7 values remain — mapped positionally to
`(x, y, z, qx, qy, qz, qw)` — and a landmarks line succeeds iff exactly
63 values remain — mapped in order to 21 consecutive `(x, y, z)` triples;
any other count fails with the wrong-value-count error. -/
theorem parse_line_value_counts (line head tail : String) (side : HandSide)
    (kind_raw : String) (vs : List ℚ)
    (h1 : pyStrip line ≠ "")
    (h2 : pyPartitionColon (pyStrip line) = some (head, tail))
    (h3 : pyWords (pyStrip head) = [side.value, kind_raw])
    (h4 : (((pySplitComma tail).map pyStrip).filter (fun c => c ≠ "")).mapM pyFloat? = some vs) :
    vs.length = (((pySplitComma tail).map pyStrip).filter (fun c => c ≠ "")).length ∧
      (pyLower kind_raw = "wrist" →
        ((∃ p, parse_line line = .ok p) ↔ vs.length = 7) ∧
        (vs.length = 7 →
          parse_line line = .ok (.wrist
            { side := side, kind := .wrist,
              data := { x := vs.getD 0 0, y := vs.getD 1 0, z := vs.getD 2 0,
                        qx := vs.getD 3 0, qy := vs.getD 4 0, qz := vs.getD 5 0,
                        qw := vs.getD 6 0 } })) ∧
        (vs.length ≠ 7 →
          parse_line line = .error (.wrongValueCount .wrist 7 vs.length))) ∧
      (pyLower kind_raw = "landmarks" →
        ((∃ p, parse_line line = .ok p) ↔ vs.length = 63) ∧
        (vs.length = 63 →
          parse_line line = .ok (.landmarks
            { side := side, kind := .landmarks,
              data := { points := chunk3 vs } })) ∧
        (vs.length ≠ 63 →
          parse_line line = .error (.wrongValueCount .landmarks 63 vs.length))) := by
  have hfloats : parse_floats tail = .ok vs := by
    simp only [parse_floats, h4]
  have hred := parse_line_reduces line head tail side kind_raw vs h1 h2 h3 hfloats
  refine ⟨mapM_some_length pyFloat? _ vs h4, ?_, ?_⟩
  · intro hk
    rw [hred.1 hk]
    have hspec := parse_wrist_spec side vs
    refine ⟨⟨?_, ?_⟩, ?_, ?_⟩
    · rintro ⟨p, hp⟩
      by_contra hne
      rw [hspec.2 hne] at hp
      exact absurd hp (by simp)
    · intro h7
      exact ⟨_, hspec.1 h7⟩
    · intro h7
      exact hspec.1 h7
    · intro hne
      exact hspec.2 hne
  · intro hk
    rw [hred.2 hk]
    have hspec := parse_landmarks_spec side vs
    refine ⟨⟨?_, ?_⟩, ?_, ?_⟩
    · rintro ⟨p, hp⟩
      by_contra hne
      rw [hspec.2 hne] at hp
      exact absurd hp (by simp)
    · intro h63
      exact ⟨_, hspec.1 h63⟩
    · intro h63
      exact hspec.1 h63
    · intro hne
      exact hspec.2 hne

/-- Witness for C7 at a wrist line with a trailing comma: the empty final
chunk is dropped, 7 values remain, and the parse succeeds with the
positional mapping. -/
theorem parse_line_value_counts_witness :
    pyStrip c7Line ≠ "" ∧
      pyPartitionColon (pyStrip c7Line) = some ("Left wrist", c7Tail) ∧
      pyWords (pyStrip "Left wrist") = [HandSide.Left.value, "wrist"] ∧
      c7Chunks.mapM pyFloat? = some c7Vals ∧
      (c7Vals.length = c7Chunks.length ∧
        (pyLower "wrist" = "wrist" →
          ((∃ p, parse_line c7Line = .ok p) ↔ c7Vals.length = 7) ∧
          (c7Vals.length = 7 →
            parse_line c7Line = .ok (.wrist
              { side := .Left, kind := .wrist,
                data := { x := c7Vals.getD 0 0, y := c7Vals.getD 1 0, z := c7Vals.getD 2 0,
                          qx := c7Vals.getD 3 0, qy := c7Vals.getD 4 0, qz := c7Vals.getD 5 0,
                          qw := c7Vals.getD 6 0 } })) ∧
          (c7Vals.length ≠ 7 →
            parse_line c7Line = .error (.wrongValueCount .wrist 7 c7Vals.length))) ∧
        (pyLower "wrist" = "landmarks" →
          ((∃ p, parse_line c7Line = .ok p) ↔ c7Vals.length = 63) ∧
          (c7Vals.length = 63 →
            parse_line c7Line = .ok (.landmarks
              { side := .Left, kind := .landmarks,
                data := { points := chunk3 c7Vals } })) ∧
          (c7Vals.length ≠ 63 →
            parse_line c7Line = .error (.wrongValueCount .landmarks 63 c7Vals.length)))) :=
  ⟨by decide, by rfl, by rfl, by rfl,
    parse_line_value_counts c7Line "Left wrist" c7Tail .Left "wrist" c7Vals (by decide) (by rfl)
      (by rfl) (by rfl)⟩

theorem updateFor_next (s : SideState) (p : ParsedPacket) (t : Int) :
    (s.updateFor p t).next_sequence_id = s.next_sequence_id := by
  cases p <;> rfl

theorem nextSeq_setSide_same (a : HandFrameAssembler) (σ : HandSide) (st : SideState) :
    (a.setSide σ st).nextSeq σ = st.next_sequence_id := by
  unfold HandFrameAssembler.nextSeq
  rw [getSide_setSide_same]

theorem nextSeq_setSide_other (a : HandFrameAssembler) (σ τ : HandSide) (st : SideState)
    (h : σ ≠ τ) : (a.setSide σ st).nextSeq τ = a.nextSeq τ := by
  unfold HandFrameAssembler.nextSeq
  rw [getSide_setSide_other _ _ _ _ h]

theorem pushOne_step (a : HandFrameAssembler) (i : PushInput) (σ : HandSide) :
    ((a.pushOne i).1.toList.filter (fun f => decide (f.side = σ)) = [] ∧
        (a.pushOne i).2.nextSeq σ = a.nextSeq σ) ∨
      (∃ F, (a.pushOne i).1.toList.filter (fun f => decide (f.side = σ)) = [F] ∧
        F.sequence_id = a.nextSeq σ ∧ (a.pushOne i).2.nextSeq σ = a.nextSeq σ + 1) := by
  unfold HandFrameAssembler.pushOne
  rcases push_packet_cases a i.mono i.wall i.packet i.recv_ts_ns i.recv_time_unix_ns
      i.source_ts_ns with ⟨_, hp⟩ | ⟨_, hp⟩
  · left
    rw [hp]
    exact ⟨rfl, rfl⟩
  · rw [hp]
    rcases maybe_emit_cases
        (a.setSide i.packet.side
          ((a.getSide i.packet.side).updateFor i.packet (i.recv_ts_ns.getD i.mono)))
        i.packet.side
        (a.resolve_timestamps i.mono i.wall i.recv_ts_ns i.recv_time_unix_ns).2
        i.source_ts_ns with ⟨h1, h2, _⟩ | ⟨w, wts, lm, lts, _, _, _, _, _, hf, h2⟩
    · left
      rw [h1, h2]
      refine ⟨rfl, ?_⟩
      by_cases hσ : i.packet.side = σ
      · subst hσ
        rw [nextSeq_setSide_same, updateFor_next]
        rfl
      · rw [nextSeq_setSide_other _ _ _ _ hσ]
    · by_cases hσ : i.packet.side = σ
      · right
        subst hσ
        refine ⟨{ side := i.packet.side,
                  frame_id := (a.setSide i.packet.side
                    ((a.getSide i.packet.side).updateFor i.packet
                      (i.recv_ts_ns.getD i.mono))).frameId i.packet.side,
                  wrist := w, landmarks := lm,
                  sequence_id := ((a.setSide i.packet.side
                    ((a.getSide i.packet.side).updateFor i.packet
                      (i.recv_ts_ns.getD i.mono))).getSide i.packet.side).next_sequence_id,
                  recv_ts_ns := max wts lts,
                  recv_time_unix_ns := (a.resolve_timestamps i.mono i.wall i.recv_ts_ns
                    i.recv_time_unix_ns).2,
                  source_ts_ns := i.source_ts_ns,
                  wrist_recv_ts_ns := wts, landmarks_recv_ts_ns := lts }, ?_, ?_, ?_⟩
        · rw [hf]
          simp
        · show ((a.setSide _ _).getSide _).next_sequence_id = _
          rw [getSide_setSide_same, updateFor_next]
          rfl
        · rw [h2, nextSeq_setSide_same]
          show ((a.setSide _ _).getSide _).next_sequence_id + 1 = _
          rw [getSide_setSide_same, updateFor_next]
          rfl
      · left
        constructor
        · rw [hf]
          simp [hσ]
        · rw [h2, nextSeq_setSide_other _ _ _ _ hσ, nextSeq_setSide_other _ _ _ _ hσ]

theorem runPushes_seq (σ : HandSide) :
    ∀ (l : List PushInput) (a : HandFrameAssembler),
      ((a.runPushes l).1.filter (fun f => decide (f.side = σ))).map HandFrame.sequence_id
          = (List.range ((a.runPushes l).1.filter (fun f => decide (f.side = σ))).length).map
              (fun k : Nat => a.nextSeq σ + (k : Int)) ∧
        (a.runPushes l).2.nextSeq σ
          = a.nextSeq σ + ((a.runPushes l).1.filter (fun f => decide (f.side = σ))).length := by
  intro l
  induction l with
  | nil =>
    intro a
    simp [HandFrameAssembler.runPushes]
  | cons i rest ih =>
    intro a
    have hrun : a.runPushes (i :: rest)
        = ((a.pushOne i).1.toList ++ ((a.pushOne i).2.runPushes rest).1,
           ((a.pushOne i).2.runPushes rest).2) := rfl
    rw [hrun]
    obtain ⟨ih1, ih2⟩ := ih (a.pushOne i).2
    rcases pushOne_step a i σ with ⟨hnil, hnext⟩ | ⟨F, hone, hseq, hnext⟩
    · simp only [List.filter_append, hnil, List.nil_append]
      rw [ih1, ih2, hnext]
      exact ⟨rfl, rfl⟩
    · simp only [List.filter_append, hone, List.singleton_append, List.map_cons,
        List.length_cons]
      rw [ih1, ih2, hseq, hnext]
      constructor
      · rw [List.range_succ_eq_map, List.map_cons, List.map_map]
        congr 1
        · simp
        · apply List.map_congr_left
          intro k _
          simp only [Function.comp_apply]
          push_cast
          ring
      · push_cast
        ring

/-- C4: for every input trace, the sequence ids of the frames emitted for
a side whose counter starts at 0 (assembler construction or a reset
covering that side) are exactly `0, 1, 2, …` in emission order, for each
side independently and for any interleaving of pushes. -/
theorem sequence_ids_zero_based :
    (∀ (iw : Bool) (fids : HandSide → Option String) (σ : HandSide),
        (HandFrameAssembler.init iw fids).nextSeq σ = 0) ∧
      (∀ (b : HandFrameAssembler) (σ : HandSide), (b.reset (some σ)).nextSeq σ = 0) ∧
      (∀ (b : HandFrameAssembler) (σ : HandSide), (b.reset Option.none).nextSeq σ = 0) ∧
      (∀ (a : HandFrameAssembler) (σ : HandSide) (l : List PushInput),
        a.nextSeq σ = 0 →
        ((a.runPushes l).1.filter (fun f => decide (f.side = σ))).map HandFrame.sequence_id
          = (List.range ((a.runPushes l).1.filter (fun f => decide (f.side = σ))).length).map
              (fun k : Nat => (k : Int))) := by
  refine ⟨?_, ?_, ?_, ?_⟩
  · intro iw fids σ
    cases σ <;> rfl
  · intro b σ
    show (b.setSide σ {}).nextSeq σ = 0
    rw [nextSeq_setSide_same]
  · intro b σ
    cases σ <;> rfl
  · intro a σ l h
    have h1 := (runPushes_seq σ l a).1
    rw [h] at h1
    rw [h1]
    apply List.map_congr_left
    intro k _
    simp

/-- Witness for C4: on the concrete three-push left-side trace from a
fresh assembler (counter 0), the emitted left frames carry sequence ids
`0, 1, …` in order. -/
theorem sequence_ids_zero_based_witness :
    freshA.nextSeq .Left = 0 ∧
      ((freshA.runPushes sampleTrace).1.filter
            (fun f => decide (f.side = HandSide.Left))).map HandFrame.sequence_id
        = (List.range ((freshA.runPushes sampleTrace).1.filter
              (fun f => decide (f.side = HandSide.Left))).length).map (fun k : Nat => (k : Int)) :=
  ⟨by decide, sequence_ids_zero_based.2.2.2 freshA .Left sampleTrace (by decide)⟩

end HandTrackingSDK
